import Mathlib

/-!
Shallow embedding of the crosshair-targeting core in
`src/azalea-client/src/plugins/interact/pick.rs`.

Machine floats (`f64`) are modelled as exact rationals `ℚ`.  Entity handles
(`bevy_ecs::Entity`) are modelled as `ℕ`.  Geometry primitives and external
collaborators that live in other crates of the repository (`azalea-core`,
`azalea-physics`, `azalea-entity`, `azalea-world`) are not part of the given
source excerpt; each such definition is modelled from the spec and carries a
doc comment saying so.  The Rust field name `from` is rendered `fro` and
`to` is rendered `til` (both are reserved words in Lean).
-/

/-- World-space point / vector, three rational coordinates (models `Vec3`). -/
structure Vec3 where
  x : ℚ
  y : ℚ
  z : ℚ
deriving DecidableEq, Repr

def Vec3.add (a b : Vec3) : Vec3 := ⟨a.x + b.x, a.y + b.y, a.z + b.z⟩

instance : Add Vec3 := ⟨Vec3.add⟩

def Vec3.sub (a b : Vec3) : Vec3 := ⟨a.x - b.x, a.y - b.y, a.z - b.z⟩

instance : Sub Vec3 := ⟨Vec3.sub⟩

def Vec3.scale (a : Vec3) (s : ℚ) : Vec3 := ⟨a.x * s, a.y * s, a.z * s⟩

instance : HMul Vec3 ℚ Vec3 := ⟨Vec3.scale⟩

/-- Raise a point by a height offset (models `Position::up`, used for the
eye position). -/
def Vec3.up (a : Vec3) (h : ℚ) : Vec3 := ⟨a.x, a.y + h, a.z⟩

/-- Squared euclidean distance between two points (models
`Vec3::distance_squared_to`). -/
def Vec3.distance_squared_to (a b : Vec3) : ℚ :=
  (a.x - b.x) * (a.x - b.x) + (a.y - b.y) * (a.y - b.y) + (a.z - b.z) * (a.z - b.z)

/-- Modelled from the spec: `Vec3::closer_than` (azalea-core, not under
`src/`).  The spec re-labels "results whose location is farther than `range`
from eye position" and otherwise returns the result unchanged, and states
"the filtered result's location is within `range` (inclusive)"; so a point is
`closer_than` another within `range` exactly when the squared distance is at
most the squared range. -/
def Vec3.closer_than (a b : Vec3) (range : ℚ) : Bool :=
  decide (a.distance_squared_to b ≤ range * range)

/-- Integer block coordinate (models `BlockPos`). -/
structure BlockPos where
  x : ℤ
  y : ℤ
  z : ℤ
deriving DecidableEq, Repr

/-- Modelled from the spec: the `Vec3 → BlockPos` conversion
(`location.into()` in the source, azalea-core, not under `src/`) takes the
containing block coordinate, i.e. the floor of each component. -/
def toBlockPos (v : Vec3) : BlockPos := ⟨⌊v.x⌋, ⌊v.y⌋, ⌊v.z⌋⟩

/-- The six cardinal/ordinal block-face directions (models `Direction`). -/
inductive Direction
  | down
  | up
  | north
  | south
  | west
  | east
deriving DecidableEq, Repr

/-- Modelled from the spec: "direction enum with
nearest-direction-from-vector" (`Direction::nearest`, azalea-core, not under
`src/`): the direction whose unit vector has the greatest dot product with
the argument, the earliest in down/up/north/south/west/east order winning
ties. -/
def Direction.nearest (v : Vec3) : Direction :=
  (([(Direction.up, v.y), (Direction.north, -v.z), (Direction.south, v.z),
     (Direction.west, -v.x), (Direction.east, v.x)]).foldl
    (fun best c => if best.2 < c.2 then c else best) (Direction.down, -v.y)).1

/-- Axis-aligned bounding box (models `AABB`). -/
structure AABB where
  min : Vec3
  max : Vec3
deriving DecidableEq, Repr

/-- Modelled from the spec: "AABB with ... point-containment"
(`AABB::contains`, azalea-core, not under `src/`): the point lies in the
closed box. -/
def AABB.contains (bb : AABB) (p : Vec3) : Bool :=
  decide (bb.min.x ≤ p.x ∧ p.x ≤ bb.max.x ∧
          bb.min.y ≤ p.y ∧ p.y ≤ bb.max.y ∧
          bb.min.z ≤ p.z ∧ p.z ≤ bb.max.z)

/-- Modelled from the spec: grow the box by the given amount on every axis
(`AABB::inflate_all`, azalea-core, not under `src/`; the source only ever
calls it with the per-entity pick radius, which is always `0`). -/
def AABB.inflate_all (bb : AABB) (r : ℚ) : AABB :=
  ⟨⟨bb.min.x - r, bb.min.y - r, bb.min.z - r⟩,
   ⟨bb.max.x + r, bb.max.y + r, bb.max.z + r⟩⟩

/-- Modelled from the spec (helper for `AABB.clip`): the parameter interval
along one axis for which the segment point lies between the two given face
coordinates; `none` when the segment is parallel to the axis and outside the
slab, the full `[0, 1]` stand-in when parallel and inside. -/
def clip_interval (mn mx fro til : ℚ) : Option (ℚ × ℚ) :=
  if til - fro = 0 then
    if mn ≤ fro ∧ fro ≤ mx then some (0, 1) else none
  else if 0 < til - fro then
    some ((mn - fro) / (til - fro), (mx - fro) / (til - fro))
  else
    some ((mx - fro) / (til - fro), (mn - fro) / (til - fro))

/-- Modelled from the spec: "Clip: computing the intersection point (if any)
of a ray/segment against a bounding volume" (`AABB::clip`, azalea-core, not
under `src/`): the earliest point of the segment `[fro, til]` lying in the
closed box, computed by intersecting the per-axis slab intervals with
`[0, 1]`. -/
def AABB.clip (bb : AABB) (fro til : Vec3) : Option Vec3 :=
  match clip_interval bb.min.x bb.max.x fro.x til.x,
        clip_interval bb.min.y bb.max.y fro.y til.y,
        clip_interval bb.min.z bb.max.z fro.z til.z with
  | some ix, some iy, some iz =>
    let lo := Max.max 0 (Max.max ix.1 (Max.max iy.1 iz.1))
    let hi := Min.min 1 (Min.min ix.2 (Min.min iy.2 iz.2))
    if lo ≤ hi then some (fro + (til - fro) * lo) else none
  | _, _, _ => none

/-- Impact point plus target entity handle (models `EntityHitResult`). -/
structure EntityHitResult where
  location : Vec3
  entity : ℕ
deriving DecidableEq, Repr

/-- Modelled from the spec: the *Block* variant of the hit-result data model
(`BlockHitResult`, azalea-core, not under `src/`): "struck block coordinate,
impacted face/direction, exact impact point, and whether it was a true hit
or a synthesized miss". -/
structure BlockHitResult where
  location : Vec3
  direction : Direction
  block_pos : BlockPos
  miss : Bool
  inside : Bool
  world_border : Bool
deriving DecidableEq, Repr

/-- Modelled from the spec: the `HitResult` tagged union — "either a *Block*
variant ... or an *Entity* variant". -/
inductive HitResult
  | block (block_hit_result : BlockHitResult)
  | entity (entity_hit_result : EntityHitResult)
deriving DecidableEq, Repr

/-- The impact point of a hit result (models `HitResult::location`). -/
def HitResult.location : HitResult → Vec3
  | .block b => b.location
  | .entity e => e.location

/-- Modelled from the spec: `HitResult::new_miss` (azalea-core, not under
`src/`): "construct a block-miss result at that location tagged with that
direction". -/
def HitResult.new_miss (location : Vec3) (direction : Direction)
    (block_pos : BlockPos) : HitResult :=
  .block ⟨location, direction, block_pos, true, false, false⟩

/-- Whether a hit result is tagged as a synthesized miss (models
`HitResult::miss`; an entity hit is never a miss). -/
def HitResult.is_miss : HitResult → Bool
  | .block b => b.miss
  | .entity _ => false

/-- Look direction as two angles (models `LookDirection`). -/
structure LookDirection where
  y_rot : ℚ
  x_rot : ℚ
deriving DecidableEq, Repr

/-- Block shape mode for the voxel clipper (models `BlockShapeType`; the
source always uses `Outline`). -/
inductive BlockShapeType
  | collider
  | outline
  | visual
deriving DecidableEq, Repr

/-- Fluid handling mode for the voxel clipper (models `FluidPickType`; the
source always uses `None`). -/
inductive FluidPickType
  | no_fluids
  | source_only
  | any_fluid
deriving DecidableEq, Repr

/-- The ray-cast request handed to the voxel clipper (models `ClipContext`;
`from`/`to` rendered `fro`/`til`). -/
structure ClipContext where
  fro : Vec3
  til : Vec3
  block_shape_type : BlockShapeType
  fluid_pick_type : FluidPickType
deriving DecidableEq, Repr

/-- Modelled from the spec: the block-storage structure together with the
out-of-scope voxel-grid traversal over it.  The spec treats the traversal as
"an opaque function `clip(world, ray) -> BlockHit`", so the storage is
modelled as the oracle giving the traversal's outcome for each
non-degenerate ray. -/
structure ChunkStorage where
  clip_oracle : ClipContext → BlockHitResult

/-- Modelled from the spec: the external voxel clipper
(`azalea_physics::clip::clip`, not under `src/`; "OUT OF SCOPE ... treated
as an opaque function").  Per the spec it returns "a genuine block face hit,
or — if the clipper finds nothing before the segment end — a synthesized
miss located at the segment's far endpoint with a best-guess face
direction"; a degenerate segment (`fro = til`, arising when the range is 0)
traverses nothing, so it is "immediately a miss at the origin".  Any other
segment's outcome is taken from the storage's oracle. -/
def clip (chunks : ChunkStorage) (ctx : ClipContext) : BlockHitResult :=
  if ctx.fro = ctx.til then
    ⟨ctx.til, Direction.nearest (ctx.fro - ctx.til), toBlockPos ctx.til,
     true, false, false⟩
  else
    chunks.clip_oracle ctx

/-- A world handle (models `Instance`, reduced to the only state the excerpt
reads: its chunk storage). -/
structure Instance where
  chunks : ChunkStorage

/-- Port of `filter_hit_result` (`pick.rs:121-129`). -/
def filter_hit_result (hit_result : HitResult) (eye_position : Vec3)
    (range : ℚ) : HitResult :=
  let location := hit_result.location
  if !location.closer_than eye_position range then
    let direction := Direction.nearest (location - eye_position)
    HitResult.new_miss location direction (toBlockPos location)
  else
    hit_result

/-- Port of `pick_block` (`pick.rs:135-153`).  `view_vector`
(azalea-entity, not under `src/`) is trigonometric ("yaw/pitch → direction
cosines"), which has no exact rational evaluation, so it is passed as an
explicit function argument. -/
def pick_block (view_vector : LookDirection → Vec3)
    (look_direction : LookDirection) (eye_position : Vec3)
    (chunks : ChunkStorage) (pick_range : ℚ) : BlockHitResult :=
  let view_vector := view_vector look_direction
  let end_position := eye_position + view_vector * pick_range
  clip chunks
    ⟨eye_position, end_position, BlockShapeType.outline, FluidPickType.no_fluids⟩

/-- Options record of `pick` (models `PickOpts`). -/
structure PickOpts where
  look_direction : LookDirection
  eye_position : Vec3
  world : Instance
  block_pick_range : ℚ

/-- Port of `pick` (`pick.rs:100-119`): block resolver followed by the range
filter. -/
def pick (view_vector : LookDirection → Vec3) (opts : PickOpts) : HitResult :=
  let max_range := opts.block_pick_range
  let block_hit_result :=
    pick_block view_vector opts.look_direction opts.eye_position
      opts.world.chunks max_range
  filter_hit_result (HitResult.block block_hit_result) opts.eye_position
    opts.block_pick_range

/-- One iteration of the candidate loop of `pick_entity` (`pick.rs:171-210`),
acting on the loop state `(picked_distance_squared, result)`. -/
def pick_entity_step (eye_position end_position : Vec3)
    (state : ℚ × Option EntityHitResult) (candidate : ℕ × AABB) :
    ℚ × Option EntityHitResult :=
  let picked_distance_squared := state.1
  let result := state.2
  let candidate_pick_radius : ℚ := 0
  let candidate_aabb := candidate.2.inflate_all candidate_pick_radius
  let clip_location := candidate_aabb.clip eye_position end_position
  if candidate_aabb.contains eye_position then
    if 0 ≤ picked_distance_squared then
      (0, some ⟨clip_location.getD eye_position, candidate.1⟩)
    else
      (picked_distance_squared, result)
  else
    match clip_location with
    | some clip_location =>
      let distance_squared := eye_position.distance_squared_to clip_location
      if distance_squared < picked_distance_squared ∨ picked_distance_squared = 0 then
        (distance_squared, some ⟨clip_location, candidate.1⟩)
      else
        (picked_distance_squared, result)
    | none => (picked_distance_squared, result)

/-- Port of `pick_entity` (`pick.rs:167-213`).  The spatial enumeration
`get_entities` is an external collaborator ("opaque function returning
candidates overlapping an expanded bounding volume"), so the enumeration is
taken as an explicit list of `(entity, aabb)` candidates. -/
def pick_entity (eye_position end_position : Vec3) (pick_range_squared : ℚ)
    (candidates : List (ℕ × AABB)) : Option EntityHitResult :=
  (candidates.foldl (pick_entity_step eye_position end_position)
    (pick_range_squared, none)).2

/-- Entity eye-height offset (models `EntityDimensions`, reduced to the only
field the excerpt reads). -/
structure EntityDimensions where
  eye_height : ℚ
deriving DecidableEq, Repr

/-- Modelled from the spec: the attribute set, reduced to "read-only access
to a per-entity modifiable numeric attribute yielding the current
block-interaction range" — the value of
`attributes.block_interaction_range.calculate()`. -/
structure Attributes where
  block_interaction_range : ℚ
deriving DecidableEq, Repr

/-- One locally-controlled entity as seen by the per-tick refresh system:
its handle, its optional stored `HitResultComponent`, and the components the
query reads.  World identifiers (`InstanceName`) are modelled as `ℕ`. -/
structure LocalEntityRow where
  entity : ℕ
  hit_result : Option HitResult
  position : Vec3
  dimensions : EntityDimensions
  look_direction : LookDirection
  world_name : ℕ
  attributes : Attributes

/-- The body of `update_hit_result_component`'s loop (`pick.rs:44-76`) for a
single queried entity.  When the instance container cannot resolve the
entity's world the entity is skipped unchanged (`let ... else continue`);
otherwise the pick result is stored, overwriting an existing component or
inserting a fresh one — in both cases the stored component becomes the new
result. -/
def update_one_entity (view_vector : LookDirection → Vec3)
    (instance_container : ℕ → Option Instance) (row : LocalEntityRow) :
    LocalEntityRow :=
  let block_pick_range := row.attributes.block_interaction_range
  let eye_position := row.position.up row.dimensions.eye_height
  match instance_container row.world_name with
  | none => row
  | some world =>
    let hit_result :=
      pick view_vector
        ⟨row.look_direction, eye_position, world, block_pick_range⟩
    { row with hit_result := some hit_result }

/-- Port of the `update_hit_result_component` system (`pick.rs:28-77`): the
per-tick pass over every locally-controlled entity. -/
def update_hit_result_component (view_vector : LookDirection → Vec3)
    (instance_container : ℕ → Option Instance)
    (rows : List LocalEntityRow) : List LocalEntityRow :=
  rows.map (update_one_entity view_vector instance_container)

/-! ### Concrete test fixtures

A small scene used by the closed witnesses and counterexamples below: the
eye sits at the origin, the ray runs along `+x` to `(10, 0, 0)`. -/

def eyeT : Vec3 := ⟨0, 0, 0⟩

def endT : Vec3 := ⟨10, 0, 0⟩

/-- A unit-radius box around the origin; it contains `eyeT`. -/
def boxContainA : AABB := ⟨⟨-1, -1, -1⟩, ⟨1, 1, 1⟩⟩

/-- A radius-2 box around the origin; it also contains `eyeT`. -/
def boxContainB : AABB := ⟨⟨-2, -2, -2⟩, ⟨2, 2, 2⟩⟩

/-- A box ahead of the eye; the ray enters it at `(2, 0, 0)`, squared
distance 4. -/
def boxNear : AABB := ⟨⟨2, -1, -1⟩, ⟨3, 1, 1⟩⟩

/-- A box farther ahead; the ray enters it at `(3, 0, 0)`, squared
distance 9. -/
def boxFar : AABB := ⟨⟨3, -1, -1⟩, ⟨4, 1, 1⟩⟩

/-- A box off to the side: it neither contains `eyeT` nor intersects the
segment `[eyeT, endT]`. -/
def boxMiss : AABB := ⟨⟨5, 5, 5⟩, ⟨6, 6, 6⟩⟩

/-- A genuine (non-miss) block hit whose location `(10, 0, 0)` is farther
than range 3 from `eyeT`. -/
def hitFar : HitResult :=
  .block ⟨⟨10, 0, 0⟩, Direction.west, ⟨10, 0, 0⟩, false, false, false⟩

/-- A genuine (non-miss) block hit whose location `(1, 0, 0)` is within
range 3 of `eyeT`. -/
def hitNear : HitResult :=
  .block ⟨⟨1, 0, 0⟩, Direction.west, ⟨1, 0, 0⟩, false, false, false⟩

/-- A locally-controlled entity row (handle 7, world 3) with no previously
stored hit result. -/
def rowT : LocalEntityRow :=
  ⟨7, none, ⟨0, 0, 0⟩, ⟨162 / 100⟩, ⟨0, 0⟩, 3, ⟨45 / 10⟩⟩

/-- The same row with a previously stored hit result, to observe that a
skip leaves the stored component untouched. -/
def rowStored : LocalEntityRow :=
  ⟨8, some hitNear, ⟨0, 0, 0⟩, ⟨162 / 100⟩, ⟨0, 0⟩, 3, ⟨45 / 10⟩⟩

/-! ### Helper lemmas about the geometry model -/

@[simp] lemma Vec3.add_x (a b : Vec3) : (a + b).x = a.x + b.x := rfl

@[simp] lemma Vec3.add_y (a b : Vec3) : (a + b).y = a.y + b.y := rfl

@[simp] lemma Vec3.add_z (a b : Vec3) : (a + b).z = a.z + b.z := rfl

@[simp] lemma Vec3.sub_x (a b : Vec3) : (a - b).x = a.x - b.x := rfl

@[simp] lemma Vec3.sub_y (a b : Vec3) : (a - b).y = a.y - b.y := rfl

@[simp] lemma Vec3.sub_z (a b : Vec3) : (a - b).z = a.z - b.z := rfl

@[simp] lemma Vec3.scale_x (a : Vec3) (s : ℚ) : (a * s).x = a.x * s := rfl

@[simp] lemma Vec3.scale_y (a : Vec3) (s : ℚ) : (a * s).y = a.y * s := rfl

@[simp] lemma Vec3.scale_z (a : Vec3) (s : ℚ) : (a * s).z = a.z * s := rfl

@[simp] lemma Vec3.add_mk (a b c d e f : ℚ) :
    (⟨a, b, c⟩ + ⟨d, e, f⟩ : Vec3) = ⟨a + d, b + e, c + f⟩ := rfl

@[simp] lemma Vec3.sub_mk (a b c d e f : ℚ) :
    (⟨a, b, c⟩ - ⟨d, e, f⟩ : Vec3) = ⟨a - d, b - e, c - f⟩ := rfl

@[simp] lemma Vec3.scale_mk (a b c s : ℚ) :
    ((⟨a, b, c⟩ : Vec3) * s) = (⟨a * s, b * s, c * s⟩ : Vec3) := rfl


lemma Vec3.add_scale_zero (a b : Vec3) : a + b * (0 : ℚ) = a := by
  rcases a with ⟨a1, a2, a3⟩
  rcases b with ⟨b1, b2, b3⟩
  simp

lemma Vec3.distance_squared_to_nonneg (a b : Vec3) :
    0 ≤ a.distance_squared_to b := by
  have hx := mul_self_nonneg (a.x - b.x)
  have hy := mul_self_nonneg (a.y - b.y)
  have hz := mul_self_nonneg (a.z - b.z)
  unfold Vec3.distance_squared_to
  linarith

lemma Vec3.eq_of_distance_squared_to_eq_zero {a b : Vec3}
    (h : a.distance_squared_to b = 0) : a = b := by
  have hx := mul_self_nonneg (a.x - b.x)
  have hy := mul_self_nonneg (a.y - b.y)
  have hz := mul_self_nonneg (a.z - b.z)
  unfold Vec3.distance_squared_to at h
  have hx0 : a.x = b.x := by nlinarith
  have hy0 : a.y = b.y := by nlinarith
  have hz0 : a.z = b.z := by nlinarith
  rcases a with ⟨a1, a2, a3⟩
  rcases b with ⟨b1, b2, b3⟩
  simp_all

lemma Vec3.distance_squared_to_pos {a b : Vec3} (h : a ≠ b) :
    0 < a.distance_squared_to b := by
  rcases lt_or_eq_of_le (Vec3.distance_squared_to_nonneg a b) with h' | h'
  · exact h'
  · exact absurd (Vec3.eq_of_distance_squared_to_eq_zero h'.symm) h

lemma AABB.inflate_all_zero (bb : AABB) : bb.inflate_all 0 = bb := by
  rcases bb with ⟨⟨a1, a2, a3⟩, ⟨b1, b2, b3⟩⟩
  simp [AABB.inflate_all]

lemma clip_interval_bound {mn mx fro til l u t : ℚ}
    (h : clip_interval mn mx fro til = some (l, u)) (htl : l ≤ t)
    (htu : t ≤ u) :
    mn ≤ fro + (til - fro) * t ∧ fro + (til - fro) * t ≤ mx := by
  unfold clip_interval at h
  by_cases hd : til - fro = 0
  · rw [if_pos hd] at h
    by_cases hin : mn ≤ fro ∧ fro ≤ mx
    · rw [if_pos hin] at h
      rw [hd]
      constructor <;> nlinarith [hin.1, hin.2]
    · rw [if_neg hin] at h
      exact absurd h (by simp)
  · rw [if_neg hd] at h
    by_cases hpos : 0 < til - fro
    · rw [if_pos hpos] at h
      simp only [Option.some.injEq, Prod.mk.injEq] at h
      obtain ⟨hl, hu⟩ := h
      subst hl; subst hu
      rw [div_le_iff₀ hpos] at htl
      rw [le_div_iff₀ hpos] at htu
      constructor <;> nlinarith [htl, htu]
    · have hneg : til - fro < 0 := lt_of_le_of_ne (le_of_not_lt hpos) hd
      rw [if_neg hpos] at h
      simp only [Option.some.injEq, Prod.mk.injEq] at h
      obtain ⟨hl, hu⟩ := h
      subst hl; subst hu
      rw [div_le_iff_of_neg hneg] at htl
      rw [le_div_iff_of_neg hneg] at htu
      constructor <;> nlinarith [htl, htu]

lemma AABB.clip_some_contains {bb : AABB} {fro til p : Vec3}
    (h : bb.clip fro til = some p) : bb.contains p = true := by
  unfold AABB.clip at h
  split at h
  next ix iy iz hx hy hz =>
    simp only [] at h
    split at h
    next hle =>
      simp only [Option.some.injEq] at h
      subst h
      set lo := Max.max 0 (Max.max ix.1 (Max.max iy.1 iz.1)) with hlo
      have hx1 : ix.1 ≤ lo := le_trans (le_max_left _ _) (le_max_right _ _)
      have hy1 : iy.1 ≤ lo :=
        le_trans (le_trans (le_max_left _ _) (le_max_right _ _))
          (le_max_right _ _)
      have hz1 : iz.1 ≤ lo :=
        le_trans (le_trans (le_max_right _ _) (le_max_right _ _))
          (le_max_right _ _)
      have hx2 : lo ≤ ix.2 :=
        le_trans hle (le_trans (min_le_right _ _) (min_le_left _ _))
      have hy2 : lo ≤ iy.2 :=
        le_trans hle (le_trans (min_le_right _ _)
          (le_trans (min_le_right _ _) (min_le_left _ _)))
      have hz2 : lo ≤ iz.2 :=
        le_trans hle (le_trans (min_le_right _ _)
          (le_trans (min_le_right _ _) (min_le_right _ _)))
      obtain ⟨bx1, bx2⟩ := clip_interval_bound hx hx1 hx2
      obtain ⟨by1, by2⟩ := clip_interval_bound hy hy1 hy2
      obtain ⟨bz1, bz2⟩ := clip_interval_bound hz hz1 hz2
      simp only [AABB.contains, decide_eq_true_eq, Vec3.add_x, Vec3.add_y,
        Vec3.add_z, Vec3.sub_x, Vec3.sub_y, Vec3.sub_z, Vec3.scale_x,
        Vec3.scale_y, Vec3.scale_z]
      exact ⟨bx1, bx2, by1, by2, bz1, bz2⟩
    next => simp at h
  next => simp at h

/-! ### Helper lemmas about the candidate loop of `pick_entity` -/

lemma pick_entity_step_contains {eye q : Vec3} {e : ℕ} {bb : AABB}
    {st : ℚ × Option EntityHitResult}
    (hc : (bb.inflate_all 0).contains eye = true) (h0 : 0 ≤ st.1) :
    pick_entity_step eye q st (e, bb) =
      (0, some ⟨((bb.inflate_all 0).clip eye q).getD eye, e⟩) := by
  simp only [pick_entity_step, hc, if_true, if_pos h0]

lemma pick_entity_step_inert {eye q : Vec3} {e : ℕ} {bb : AABB}
    {st : ℚ × Option EntityHitResult}
    (hc : (bb.inflate_all 0).contains eye = false)
    (hn : (bb.inflate_all 0).clip eye q = none) :
    pick_entity_step eye q st (e, bb) = st := by
  simp only [pick_entity_step, hc, hn, Bool.false_eq_true, if_false]

lemma pick_entity_step_clip {eye q cl : Vec3} {e : ℕ} {bb : AABB}
    {st : ℚ × Option EntityHitResult}
    (hc : (bb.inflate_all 0).contains eye = false)
    (hcl : (bb.inflate_all 0).clip eye q = some cl) :
    pick_entity_step eye q st (e, bb) =
      if eye.distance_squared_to cl < st.1 ∨ st.1 = 0 then
        (eye.distance_squared_to cl, some ⟨cl, e⟩)
      else st := by
  simp only [pick_entity_step, hc, hcl, Bool.false_eq_true, if_false]

lemma pick_entity_step_fst_nonneg {eye q : Vec3}
    {st : ℚ × Option EntityHitResult} {c : ℕ × AABB} (h : 0 ≤ st.1) :
    0 ≤ (pick_entity_step eye q st c).1 := by
  obtain ⟨e, bb⟩ := c
  cases hc : (bb.inflate_all 0).contains eye with
  | true =>
    rw [pick_entity_step_contains hc h]
  | false =>
    cases hcl : (bb.inflate_all 0).clip eye q with
    | none => rw [pick_entity_step_inert hc hcl]; exact h
    | some cl =>
      rw [pick_entity_step_clip hc hcl]
      split
      · exact Vec3.distance_squared_to_nonneg _ _
      · exact h

lemma pick_entity_foldl_fst_nonneg {eye q : Vec3}
    {st : ℚ × Option EntityHitResult} (l : List (ℕ × AABB)) (h : 0 ≤ st.1) :
    0 ≤ (l.foldl (pick_entity_step eye q) st).1 := by
  induction l generalizing st with
  | nil => exact h
  | cons c t ih =>
    rw [List.foldl_cons]
    exact ih (pick_entity_step_fst_nonneg h)

lemma pick_entity_foldl_inert {eye q : Vec3}
    {st : ℚ × Option EntityHitResult} {l : List (ℕ × AABB)}
    (h : ∀ c ∈ l, (c.2.inflate_all 0).contains eye = false ∧
      (c.2.inflate_all 0).clip eye q = none) :
    l.foldl (pick_entity_step eye q) st = st := by
  induction l generalizing st with
  | nil => rfl
  | cons c t ih =>
    obtain ⟨e, bb⟩ := c
    rw [List.foldl_cons,
      pick_entity_step_inert (h (e, bb) (List.mem_cons_self (e, bb) t)).1
        (h (e, bb) (List.mem_cons_self (e, bb) t)).2]
    exact ih fun d hd => h d (List.mem_cons_of_mem (e, bb) hd)

/-- After a containing candidate whose whole suffix neither contains the eye
nor clips the segment, the loop ends with a zero recorded distance and that
candidate as the result. -/
lemma pick_entity_foldl_containing {eye q : Vec3} {rsq : ℚ} {e : ℕ}
    {bb : AABB} {pre post : List (ℕ × AABB)} (hr : 0 ≤ rsq)
    (hbb : (bb.inflate_all 0).contains eye = true)
    (hpost : ∀ c ∈ post, (c.2.inflate_all 0).contains eye = false ∧
      (c.2.inflate_all 0).clip eye q = none) :
    (pre ++ (e, bb) :: post).foldl (pick_entity_step eye q) (rsq, none) =
      (0, some ⟨((bb.inflate_all 0).clip eye q).getD eye, e⟩) := by
  rw [List.foldl_append, List.foldl_cons]
  have h0 : 0 ≤ (pre.foldl (pick_entity_step eye q) ((rsq : ℚ), none)).1 :=
    pick_entity_foldl_fst_nonneg pre hr
  rw [pick_entity_step_contains hbb h0]
  exact pick_entity_foldl_inert hpost

lemma pick_entity_step_snd_cases {eye q : Vec3}
    {st : ℚ × Option EntityHitResult} {c : ℕ × AABB} {r : EntityHitResult}
    (h : (pick_entity_step eye q st c).2 = some r) :
    st.2 = some r ∨
      (r.entity = c.1 ∧
        ((∃ p, (c.2.inflate_all 0).clip eye q = some p ∧ r.location = p) ∨
          ((c.2.inflate_all 0).contains eye = true ∧
            (c.2.inflate_all 0).clip eye q = none ∧ r.location = eye))) := by
  simp only [pick_entity_step] at h
  split at h
  next hc =>
    split at h
    · simp only [Option.some.injEq] at h
      subst h
      cases hcl : (c.2.inflate_all 0).clip eye q with
      | none => exact Or.inr ⟨rfl, Or.inr ⟨hc, rfl, rfl⟩⟩
      | some p => exact Or.inr ⟨rfl, Or.inl ⟨p, rfl, rfl⟩⟩
    · exact Or.inl h
  next hc =>
    split at h
    next p heq =>
      split at h
      · simp only [Option.some.injEq] at h
        subst h
        exact Or.inr ⟨rfl, Or.inl ⟨p, heq, rfl⟩⟩
      · exact Or.inl h
    next heq => exact Or.inl h

lemma pick_entity_foldl_snd_cases {eye q : Vec3} {r : EntityHitResult} :
    ∀ (l : List (ℕ × AABB)) (st : ℚ × Option EntityHitResult),
      (l.foldl (pick_entity_step eye q) st).2 = some r →
      st.2 = some r ∨
        ∃ bb, (r.entity, bb) ∈ l ∧
          ((∃ p, (bb.inflate_all 0).clip eye q = some p ∧ r.location = p) ∨
            ((bb.inflate_all 0).contains eye = true ∧
              (bb.inflate_all 0).clip eye q = none ∧ r.location = eye)) := by
  intro l
  induction l with
  | nil => intro st h; exact Or.inl h
  | cons c t ih =>
    intro st h
    rw [List.foldl_cons] at h
    rcases ih _ h with hst | ⟨bb, hmem, hcase⟩
    · rcases pick_entity_step_snd_cases hst with hst' | ⟨hent, hcase⟩
      · exact Or.inl hst'
      · refine Or.inr ⟨c.2, ?_, hcase⟩
        rw [hent]
        exact List.mem_cons_self c t
    · exact Or.inr ⟨bb, List.mem_cons_of_mem c hmem, hcase⟩

/-! ### Claim theorems -/

/-- Claim C1, counterexample: the eye position lies inside `boxContainA`
(candidate 1) and inside no other candidate's AABB, yet enumerating the
non-containing, clipping candidate 2 after candidate 1 makes the resolver
return candidate 2 at its clip point `(2, 0, 0)` (squared distance 4), not
candidate 1 at distance 0 — the `picked_distance_squared == 0` disjunct of
the comparison branch lets a later candidate replace the zero-distance
hit.  This refutes "regardless of what non-containing candidates are
enumerated before or after it". -/
theorem pick_entity_inside_stolen_by_later_clip :
    boxContainA.contains eyeT = true ∧ boxNear.contains eyeT = false ∧
    pick_entity eyeT endT 100 [(1, boxContainA), (2, boxNear)]
      = some ⟨⟨2, 0, 0⟩, 2⟩ := by
  refine ⟨?_, ?_, ?_⟩ <;>
    norm_num [pick_entity, pick_entity_step, AABB.clip, clip_interval,
      AABB.contains, AABB.inflate_all, Vec3.distance_squared_to, Option.getD,
      eyeT, endT, boxContainA, boxNear]

/-- Claim C1 (amended): if the eye position lies inside exactly one
enumerated candidate's AABB (no other candidate contains it), the squared
pick range is nonnegative, and every candidate enumerated *after* the
containing one yields no clip point, then the resolver returns the
containing candidate with recorded squared distance 0, the impact point
being the clip point if one exists and the eye position otherwise.
Non-containing candidates enumerated *before* it never affect this. -/
theorem pick_entity_unique_containing {eye q : Vec3} {rsq : ℚ} {e : ℕ}
    {bb : AABB} {pre post : List (ℕ × AABB)} (hr : 0 ≤ rsq)
    (hbb : (bb.inflate_all 0).contains eye = true)
    (_hpre : ∀ c ∈ pre, (c.2.inflate_all 0).contains eye = false)
    (hpost : ∀ c ∈ post, (c.2.inflate_all 0).contains eye = false ∧
      (c.2.inflate_all 0).clip eye q = none) :
    pick_entity eye q rsq (pre ++ (e, bb) :: post)
      = some ⟨((bb.inflate_all 0).clip eye q).getD eye, e⟩ ∧
    ((pre ++ (e, bb) :: post).foldl (pick_entity_step eye q)
      (rsq, none)).1 = 0 := by
  have h := @pick_entity_foldl_containing eye q rsq e bb pre post hr hbb hpost
  constructor
  · unfold pick_entity
    rw [h]
  · rw [h]

theorem pick_entity_unique_containing_witness :
    (0 : ℚ) ≤ 100 ∧
    pick_entity eyeT endT 100 ([(3, boxNear)] ++ (1, boxContainA) :: [(2, boxMiss)])
      = some ⟨((boxContainA.inflate_all 0).clip eyeT endT).getD eyeT, 1⟩ := by
  refine ⟨by norm_num, ?_⟩
  have hbb : (boxContainA.inflate_all 0).contains eyeT = true := by
    norm_num [AABB.contains, AABB.inflate_all, boxContainA, eyeT]
  have hpre : ∀ c ∈ [((3 : ℕ), boxNear)],
      (c.2.inflate_all 0).contains eyeT = false := by
    intro c hc
    rw [List.mem_singleton] at hc
    subst hc
    norm_num [AABB.contains, AABB.inflate_all, boxNear, eyeT]
  have hpost : ∀ c ∈ [((2 : ℕ), boxMiss)],
      (c.2.inflate_all 0).contains eyeT = false ∧
      (c.2.inflate_all 0).clip eyeT endT = none := by
    intro c hc
    rw [List.mem_singleton] at hc
    subst hc
    constructor
    · norm_num [AABB.contains, AABB.inflate_all, boxMiss, eyeT]
    · norm_num [AABB.clip, clip_interval, AABB.inflate_all, boxMiss, eyeT, endT]
  exact (pick_entity_unique_containing (by norm_num) hbb hpre hpost).1

/-- Claim C2, counterexample: both candidates' AABBs contain the eye
position and the claim says the first enumerated one (candidate 1) wins,
but the eye-inside branch's guard `picked_distance_squared >= 0.` also
holds after a zero-distance hit has been recorded, so the later containing
candidate 2 replaces candidate 1 and is returned. -/
theorem pick_entity_last_containing_cex :
    boxContainA.contains eyeT = true ∧ boxContainB.contains eyeT = true ∧
    pick_entity eyeT endT 100 [(1, boxContainA), (2, boxContainB)]
      = some ⟨⟨0, 0, 0⟩, 2⟩ := by
  refine ⟨?_, ?_, ?_⟩ <;>
    norm_num [pick_entity, pick_entity_step, AABB.clip, clip_interval,
      AABB.contains, AABB.inflate_all, Vec3.distance_squared_to, Option.getD,
      eyeT, endT, boxContainA, boxContainB]

/-- Claim C2 (amended): the eye-inside branch's guard (recorded squared
distance ≥ 0) still holds once a zero-distance hit has been recorded, so
the branch *does* replace the result for every later containing candidate;
hence, when the squared pick range is nonnegative, the resolver returns the
*last* containing candidate enumerated (provided the candidates after it
neither contain the eye nor yield a clip point), with impact point equal to
its clip point if one exists, else the eye position. -/
theorem pick_entity_last_containing {eye q : Vec3} {rsq : ℚ} {e : ℕ}
    {bb : AABB} {pre post : List (ℕ × AABB)} (hr : 0 ≤ rsq)
    (hbb : (bb.inflate_all 0).contains eye = true)
    (hpost : ∀ c ∈ post, (c.2.inflate_all 0).contains eye = false ∧
      (c.2.inflate_all 0).clip eye q = none) :
    pick_entity eye q rsq (pre ++ (e, bb) :: post)
      = some ⟨((bb.inflate_all 0).clip eye q).getD eye, e⟩ := by
  have h := @pick_entity_foldl_containing eye q rsq e bb pre post hr hbb hpost
  unfold pick_entity
  rw [h]

theorem pick_entity_last_containing_witness :
    (0 : ℚ) ≤ 100 ∧
    pick_entity eyeT endT 100 ([(1, boxContainA)] ++ (2, boxContainB) :: [])
      = some ⟨((boxContainB.inflate_all 0).clip eyeT endT).getD eyeT, 2⟩ := by
  refine ⟨by norm_num, ?_⟩
  have hbb : (boxContainB.inflate_all 0).contains eyeT = true := by
    norm_num [AABB.contains, AABB.inflate_all, boxContainB, eyeT]
  have hpost : ∀ c ∈ ([] : List (ℕ × AABB)),
      (c.2.inflate_all 0).contains eyeT = false ∧
      (c.2.inflate_all 0).clip eyeT endT = none := by
    intro c hc
    exact absurd hc (List.not_mem_nil c)
  exact pick_entity_last_containing (by norm_num) hbb hpost

/-- Claim C3: a candidate whose AABB does not contain the eye position but
yields a clip point replaces the recorded best result exactly when its
squared distance to the eye is strictly smaller than the recorded best
squared distance or the recorded best squared distance is exactly 0 — and on
replacement the recorded distance becomes its squared distance.  Stated for
the loop state reached after any prefix `pre` of the enumeration. -/
theorem pick_entity_replace_condition (eye q : Vec3) (rsq : ℚ)
    (pre : List (ℕ × AABB)) (e : ℕ) (bb : AABB) (cl : Vec3)
    (hnc : (bb.inflate_all 0).contains eye = false)
    (hcl : (bb.inflate_all 0).clip eye q = some cl) :
    (pre ++ [(e, bb)]).foldl (pick_entity_step eye q) (rsq, none) =
      if eye.distance_squared_to cl <
          (pre.foldl (pick_entity_step eye q) (rsq, none)).1 ∨
          (pre.foldl (pick_entity_step eye q) (rsq, none)).1 = 0 then
        (eye.distance_squared_to cl, some ⟨cl, e⟩)
      else pre.foldl (pick_entity_step eye q) (rsq, none) := by
  rw [List.foldl_append, List.foldl_cons, List.foldl_nil]
  exact pick_entity_step_clip hnc hcl

theorem pick_entity_replace_condition_witness :
    (boxFar.inflate_all 0).contains eyeT = false ∧
    (boxFar.inflate_all 0).clip eyeT endT = some ⟨3, 0, 0⟩ ∧
    ([(1, boxNear)] ++ [(2, boxFar)]).foldl (pick_entity_step eyeT endT)
        (100, none) =
      if eyeT.distance_squared_to ⟨3, 0, 0⟩ <
          ([(1, boxNear)].foldl (pick_entity_step eyeT endT) (100, none)).1 ∨
          ([(1, boxNear)].foldl (pick_entity_step eyeT endT) (100, none)).1 = 0
      then (eyeT.distance_squared_to ⟨3, 0, 0⟩, some ⟨⟨3, 0, 0⟩, 2⟩)
      else [(1, boxNear)].foldl (pick_entity_step eyeT endT) (100, none) := by
  have hnc : (boxFar.inflate_all 0).contains eyeT = false := by
    norm_num [AABB.contains, AABB.inflate_all, boxFar, eyeT]
  have hcl : (boxFar.inflate_all 0).clip eyeT endT = some ⟨3, 0, 0⟩ := by
    norm_num [AABB.clip, clip_interval, AABB.inflate_all, boxFar, eyeT, endT]
  exact ⟨hnc, hcl, pick_entity_replace_condition eyeT endT 100 [(1, boxNear)]
    2 boxFar ⟨3, 0, 0⟩ hnc hcl⟩

/-- Claim C4: for a hit result whose location is farther than `range` from
the eye position (`closer_than` false) the filter synthesizes a block-miss
at the original location, tagged with the nearest cardinal/ordinal
direction from the eye toward it; for a location within range the hit
result passes through unchanged. -/
theorem filter_hit_result_spec (hit_result : HitResult) (eye_position : Vec3)
    (range : ℚ) :
    (hit_result.location.closer_than eye_position range = false →
      filter_hit_result hit_result eye_position range =
        HitResult.new_miss hit_result.location
          (Direction.nearest (hit_result.location - eye_position))
          (toBlockPos hit_result.location)) ∧
    (hit_result.location.closer_than eye_position range = true →
      filter_hit_result hit_result eye_position range = hit_result) := by
  constructor
  · intro h
    simp [filter_hit_result, h]
  · intro h
    simp [filter_hit_result, h]

theorem filter_hit_result_spec_witness :
    hitFar.location.closer_than eyeT 3 = false ∧
    filter_hit_result hitFar eyeT 3 =
      HitResult.new_miss hitFar.location
        (Direction.nearest (hitFar.location - eyeT))
        (toBlockPos hitFar.location) ∧
    hitNear.location.closer_than eyeT 3 = true ∧
    filter_hit_result hitNear eyeT 3 = hitNear := by
  have hfar : hitFar.location.closer_than eyeT 3 = false := by
    norm_num [Vec3.closer_than, Vec3.distance_squared_to, HitResult.location,
      hitFar, eyeT]
  have hnear : hitNear.location.closer_than eyeT 3 = true := by
    norm_num [Vec3.closer_than, Vec3.distance_squared_to, HitResult.location,
      hitNear, eyeT]
  exact ⟨hfar, (filter_hit_result_spec hitFar eyeT 3).1 hfar, hnear,
    (filter_hit_result_spec hitNear eyeT 3).2 hnear⟩

/-- Claim C5, counterexample: for the out-of-range block hit `hitFar`
(location `(10, 0, 0)`, eye at the origin, range 3) the filtered result is
a miss whose location is *still* `(10, 0, 0)` — squared distance 100 > 9 —
so the filtered result's location is not within range of the eye
position. -/
theorem filter_hit_result_within_range_cex :
    ¬ ((filter_hit_result hitFar eyeT 3).location.distance_squared_to eyeT
        ≤ 3 * 3) := by
  norm_num [filter_hit_result, hitFar, eyeT, Vec3.closer_than,
    Vec3.distance_squared_to, HitResult.location, HitResult.new_miss]

/-- Claim C5 (amended): for every input hit result, eye position and range,
the filtered result's location is within `range` (inclusive, by squared
distance) of the eye position *or* the filtered result is tagged as a miss
(in which case its location is the original, possibly out-of-range,
location). -/
theorem filter_hit_result_within_range_or_miss (hit_result : HitResult)
    (eye_position : Vec3) (range : ℚ) :
    (filter_hit_result hit_result eye_position
        range).location.distance_squared_to eye_position ≤ range * range ∨
    (filter_hit_result hit_result eye_position range).is_miss = true := by
  cases hb : hit_result.location.closer_than eye_position range with
  | false =>
    right
    simp [filter_hit_result, hb, HitResult.new_miss, HitResult.is_miss]
  | true =>
    left
    simp only [filter_hit_result, hb, Bool.not_true, Bool.false_eq_true,
      if_false]
    unfold Vec3.closer_than at hb
    exact of_decide_eq_true hb

/-- Claim C6: among two candidates neither of whose AABBs contains the eye
position, clipping the segment at squared distances `d1 < d2`, both within
the squared pick range, the resolver returns the candidate at `d1` in
either enumeration order. -/
theorem pick_entity_nearest_of_two {eye q p1 p2 : Vec3} {rsq : ℚ}
    {e1 e2 : ℕ} {bb1 bb2 : AABB}
    (h1 : (bb1.inflate_all 0).contains eye = false)
    (h2 : (bb2.inflate_all 0).contains eye = false)
    (hc1 : (bb1.inflate_all 0).clip eye q = some p1)
    (hc2 : (bb2.inflate_all 0).clip eye q = some p2)
    (hd : eye.distance_squared_to p1 < eye.distance_squared_to p2)
    (hrange : eye.distance_squared_to p2 < rsq) :
    pick_entity eye q rsq [(e1, bb1), (e2, bb2)] = some ⟨p1, e1⟩ ∧
    pick_entity eye q rsq [(e2, bb2), (e1, bb1)] = some ⟨p1, e1⟩ := by
  have hne : eye ≠ p1 := by
    intro hpe
    have hcont := AABB.clip_some_contains hc1
    rw [← hpe] at hcont
    rw [h1] at hcont
    exact Bool.false_ne_true hcont
  have hd1 : 0 < eye.distance_squared_to p1 :=
    Vec3.distance_squared_to_pos hne
  have hcond : ¬ (eye.distance_squared_to p2 < eye.distance_squared_to p1 ∨
      eye.distance_squared_to p1 = 0) := by
    push_neg
    exact ⟨le_of_lt hd, ne_of_gt hd1⟩
  constructor
  · unfold pick_entity
    rw [List.foldl_cons, pick_entity_step_clip h1 hc1,
      if_pos (Or.inl (lt_trans hd hrange)), List.foldl_cons,
      pick_entity_step_clip h2 hc2, if_neg hcond, List.foldl_nil]
  · unfold pick_entity
    rw [List.foldl_cons, pick_entity_step_clip h2 hc2,
      if_pos (Or.inl hrange), List.foldl_cons,
      pick_entity_step_clip h1 hc1, if_pos (Or.inl hd), List.foldl_nil]

theorem pick_entity_nearest_of_two_witness :
    pick_entity eyeT endT 100 [(1, boxNear), (2, boxFar)]
      = some ⟨⟨2, 0, 0⟩, 1⟩ ∧
    pick_entity eyeT endT 100 [(2, boxFar), (1, boxNear)]
      = some ⟨⟨2, 0, 0⟩, 1⟩ := by
  have h1 : (boxNear.inflate_all 0).contains eyeT = false := by
    norm_num [AABB.contains, AABB.inflate_all, boxNear, eyeT]
  have h2 : (boxFar.inflate_all 0).contains eyeT = false := by
    norm_num [AABB.contains, AABB.inflate_all, boxFar, eyeT]
  have hc1 : (boxNear.inflate_all 0).clip eyeT endT = some ⟨2, 0, 0⟩ := by
    norm_num [AABB.clip, clip_interval, AABB.inflate_all, boxNear, eyeT, endT]
  have hc2 : (boxFar.inflate_all 0).clip eyeT endT = some ⟨3, 0, 0⟩ := by
    norm_num [AABB.clip, clip_interval, AABB.inflate_all, boxFar, eyeT, endT]
  have hd : eyeT.distance_squared_to ⟨2, 0, 0⟩ <
      eyeT.distance_squared_to ⟨3, 0, 0⟩ := by
    norm_num [Vec3.distance_squared_to, eyeT]
  have hrange : eyeT.distance_squared_to ⟨3, 0, 0⟩ < 100 := by
    norm_num [Vec3.distance_squared_to, eyeT]
  exact pick_entity_nearest_of_two h1 h2 hc1 hc2 hd hrange

/-- Claim C7: a candidate whose AABB neither yields a clip point against
the segment nor contains the eye position is never the returned result. -/
theorem pick_entity_no_intersection_never_returned {eye q : Vec3} {rsq : ℚ}
    {cands : List (ℕ × AABB)} {c : ℕ}
    (h : ∀ bb, (c, bb) ∈ cands → (bb.inflate_all 0).contains eye = false ∧
      (bb.inflate_all 0).clip eye q = none) :
    ∀ r, pick_entity eye q rsq cands = some r → r.entity ≠ c := by
  intro r hr hrc
  unfold pick_entity at hr
  rcases pick_entity_foldl_snd_cases cands _ hr with hst | ⟨bb, hmem, hcase⟩
  · exact Option.noConfusion hst
  · rw [hrc] at hmem
    obtain ⟨hcf, hcn⟩ := h bb hmem
    rcases hcase with ⟨p, hp, _⟩ | ⟨hct, _, _⟩
    · rw [hcn] at hp
      exact Option.noConfusion hp
    · rw [hcf] at hct
      exact Bool.false_ne_true hct

theorem pick_entity_no_intersection_never_returned_witness :
    (∀ bb, ((5 : ℕ), bb) ∈ [(1, boxNear), (5, boxMiss)] →
      (bb.inflate_all 0).contains eyeT = false ∧
      (bb.inflate_all 0).clip eyeT endT = none) ∧
    pick_entity eyeT endT 100 [(1, boxNear), (5, boxMiss)]
      = some ⟨⟨2, 0, 0⟩, 1⟩ ∧
    (⟨⟨2, 0, 0⟩, 1⟩ : EntityHitResult).entity ≠ 5 := by
  have h : ∀ bb, ((5 : ℕ), bb) ∈ [(1, boxNear), (5, boxMiss)] →
      (bb.inflate_all 0).contains eyeT = false ∧
      (bb.inflate_all 0).clip eyeT endT = none := by
    intro bb hbb
    rw [List.mem_cons, List.mem_singleton] at hbb
    rcases hbb with hbb | hbb
    · exact absurd (congrArg Prod.fst hbb) (by simp)
    · have hbb2 : bb = boxMiss := congrArg Prod.snd hbb
      subst hbb2
      constructor
      · norm_num [AABB.contains, AABB.inflate_all, boxMiss, eyeT]
      · norm_num [AABB.clip, clip_interval, AABB.inflate_all, boxMiss, eyeT,
          endT]
  have hpick : pick_entity eyeT endT 100 [(1, boxNear), (5, boxMiss)]
      = some ⟨⟨2, 0, 0⟩, 1⟩ := by
    norm_num [pick_entity, pick_entity_step, AABB.clip, clip_interval,
      AABB.contains, AABB.inflate_all, Vec3.distance_squared_to, Option.getD,
      eyeT, endT, boxNear, boxMiss]
  exact ⟨h, hpick,
    pick_entity_no_intersection_never_returned h ⟨⟨2, 0, 0⟩, 1⟩ hpick⟩

/-- Claim C8: a block-resolver cast with range 0 degenerates to the segment
`[eye, eye]`, which the clipper answers with a miss located exactly at the
eye position, for every view-vector function, look direction, eye position
and chunk storage. -/
theorem pick_block_zero_range (view_vector : LookDirection → Vec3)
    (look_direction : LookDirection) (eye_position : Vec3)
    (chunks : ChunkStorage) :
    (pick_block view_vector look_direction eye_position chunks 0).location
      = eye_position ∧
    (pick_block view_vector look_direction eye_position chunks 0).miss
      = true := by
  constructor <;> simp [pick_block, clip, Vec3.add_scale_zero]

/-- Claim C9: an entity whose world name the instance container cannot
resolve is skipped by the per-tick refresh pass: its whole row — in
particular any previously stored `HitResultComponent` — is left exactly as
it was, and the pass continues normally (it is total; no error value
exists). -/
theorem update_hit_result_component_skips_unresolved_world
    (view_vector : LookDirection → Vec3)
    (instance_container : ℕ → Option Instance) (rows : List LocalEntityRow)
    (i : ℕ) (row : LocalEntityRow) (h : rows[i]? = some row)
    (hw : instance_container row.world_name = none) :
    (update_hit_result_component view_vector instance_container rows)[i]?
      = some row := by
  unfold update_hit_result_component
  rw [List.getElem?_map, h, Option.map_some']
  simp only [update_one_entity, hw]

theorem update_hit_result_component_skips_unresolved_world_witness :
    ([rowT, rowStored][1]? = some rowStored) ∧
    ((fun _ : ℕ => (none : Option Instance)) rowStored.world_name = none) ∧
    (update_hit_result_component (fun _ => ⟨0, 0, 1⟩) (fun _ => none)
      [rowT, rowStored])[1]? = some rowStored :=
  ⟨rfl, rfl,
    update_hit_result_component_skips_unresolved_world (fun _ => ⟨0, 0, 1⟩)
      (fun _ => none) [rowT, rowStored] 1 rowStored rfl rfl⟩

/-- Claim C10: whenever the entity resolver returns a result, the result's
entity occurs in the enumeration with an AABB (inflated by the pick radius
0) such that either the segment clips that AABB and the result's location
is the clip point, or the AABB contains the eye position, the clip yields
no point, and the result's location is exactly the eye position. -/
theorem pick_entity_location_characterization {eye q : Vec3} {rsq : ℚ}
    {cands : List (ℕ × AABB)} {r : EntityHitResult}
    (h : pick_entity eye q rsq cands = some r) :
    ∃ bb, (r.entity, bb) ∈ cands ∧
      ((∃ p, (bb.inflate_all 0).clip eye q = some p ∧ r.location = p) ∨
        ((bb.inflate_all 0).contains eye = true ∧
          (bb.inflate_all 0).clip eye q = none ∧ r.location = eye)) := by
  unfold pick_entity at h
  rcases pick_entity_foldl_snd_cases cands _ h with hst | hgood
  · exact Option.noConfusion hst
  · exact hgood

theorem pick_entity_location_characterization_witness :
    pick_entity eyeT endT 100 [(4, boxFar)] = some ⟨⟨3, 0, 0⟩, 4⟩ ∧
    ∃ bb, (((⟨⟨3, 0, 0⟩, 4⟩ : EntityHitResult).entity, bb) ∈
        [((4 : ℕ), boxFar)] ∧
      ((∃ p, (bb.inflate_all 0).clip eyeT endT = some p ∧
          (⟨⟨3, 0, 0⟩, 4⟩ : EntityHitResult).location = p) ∨
        ((bb.inflate_all 0).contains eyeT = true ∧
          (bb.inflate_all 0).clip eyeT endT = none ∧
          (⟨⟨3, 0, 0⟩, 4⟩ : EntityHitResult).location = eyeT))) := by
  have hpick : pick_entity eyeT endT 100 [(4, boxFar)]
      = some ⟨⟨3, 0, 0⟩, 4⟩ := by
    norm_num [pick_entity, pick_entity_step, AABB.clip, clip_interval,
      AABB.contains, AABB.inflate_all, Vec3.distance_squared_to, Option.getD,
      eyeT, endT, boxFar]
  exact ⟨hpick, pick_entity_location_characterization hpick⟩
